import Mathlib

/-
Verification of the variants feature-flag engine (Go implementation,
package `variants`).  The definitions below are a shallow embedding of
src/go/variants/registry.go together with the Flag / Mod / Condition /
Variant data model of src/go/flag.go, src/go/condition.go and
src/go/variant.go.

Modelling conventions:
  * Go `interface{}` values appearing in flags, mods and condition
    parameters are modelled by the closed sum type `Val` (nil, bool,
    float64 number, string).  JSON numbers (Go float64) are modelled
    by rationals.
  * Go maps are modelled by association lists with Go assignment
    (`setA`, overwrite-or-insert), deletion (`delA`) and lookup
    (`lookupA`); a lookup of an absent key yields the zero value,
    exactly as in Go.
  * Evaluator functions produced by condition factories are modelled
    by the first-order inductive `Evaluator`; the call to the global
    random source `rand.Float64()` inside the RANDOM evaluator is
    modelled by an explicit `draw` parameter threaded through
    evaluation (the claims under study evaluate at most one RANDOM
    condition per call, for which this is exact).
  * A Go factory may return a valid evaluator, return nil (the
    invalid marker) or panic on a failed type assertion; this is
    `FactoryResult`.  A load that reaches a panicking factory is
    `LoadOutcome.goPanic`.
  * Go methods mutate their receiver even on error returns, so the
    mutating registry operations return the (possibly partially
    updated) registry together with an optional error message.
-/

namespace Variants

/-- Model of a Go `interface{}` value as stored in flags, mods and
condition parameters: nil, bool, float64 (as a rational) or string. -/
inductive Val
  | null
  | bool (b : Bool)
  | num (q : ℚ)
  | str (s : String)
  deriving DecidableEq, Repr

/-- Model of the dynamic type of an evaluation context: Go `nil`, a
`map[string]int` or a `map[string]string`. -/
inductive Context
  | null
  | intMap (m : List (String × Int))
  | strMap (m : List (String × String))
  deriving DecidableEq, Repr

/-- Association-list lookup, modelling a Go map read (first match). -/
def lookupA {α : Type} : List (String × α) → String → Option α
  | [], _ => none
  | (k0, v0) :: rest, k => if k0 = k then some v0 else lookupA rest k

/-- Association-list assignment, modelling Go `m[k] = v`:
overwrite in place if the key is present, append otherwise. -/
def setA {α : Type} : List (String × α) → String → α → List (String × α)
  | [], k, v => [(k, v)]
  | (k0, v0) :: rest, k, v =>
      if k0 = k then (k, v) :: rest else (k0, v0) :: setA rest k v

/-- Association-list deletion, modelling Go `delete(m, k)`. -/
def delA {α : Type} : List (String × α) → String → List (String × α)
  | [], _ => []
  | (k0, v0) :: rest, k =>
      if k0 = k then delA rest k else (k0, v0) :: delA rest k

/-- Go map read of a `map[string]int` value: an absent key yields the
zero value 0. -/
def ctxLookupInt (m : List (String × Int)) (k : String) : Int :=
  (lookupA m k).getD 0

/-- Go `int(q)` conversion of a float64 value: truncation toward zero. -/
def goInt (q : ℚ) : Int :=
  Int.tdiv q.num q.den

/-- First-order model of the condition evaluator functions built by the
built-in factories of registerBuiltInConditionTypes. -/
inductive Evaluator
  | random (p : ℚ)
  | modRange (key : String) (rangeBegin rangeEnd : Int)
  deriving DecidableEq, Repr

/-- Run an evaluator on a context.  `draw` is the value returned by the
call to `rand.Float64()` made by the RANDOM evaluator.  The MOD_RANGE
evaluator type-asserts the context to `map[string]int` (anything else
gives false), reads the key with Go zero-value semantics, and tests
`ctx[key] % 100` (Go truncated remainder) against the inclusive range. -/
def Evaluator.run (e : Evaluator) (draw : ℚ) (ctx : Context) : Bool :=
  match e, ctx with
  | .random p, _ => decide (draw ≤ p)
  | .modRange key rangeBegin rangeEnd, .intMap m =>
      let md := Int.tmod (ctxLookupInt m key) 100
      decide (rangeBegin ≤ md ∧ md ≤ rangeEnd)
  | .modRange _ _ _, _ => false

/-- Outcome of invoking a condition factory on its parameter list: a
built evaluator, the Go nil function (the invalid marker), or a Go
runtime panic (failed type assertion or out-of-range index). -/
inductive FactoryResult
  | ok (e : Evaluator)
  | invalid
  | goPanic
  deriving DecidableEq, Repr

/-- RANDOM factory of registerBuiltInConditionTypes: reads `values[0]`
(panicking on an empty parameter list), checks with a comma-ok
assertion that it is a float64 in [0,1] (returning the nil marker
otherwise) and builds the probability evaluator. -/
def randomFactory : List Val → FactoryResult
  | [] => .goPanic
  | v :: _ =>
      match v with
      | .num p => if p < 0 ∨ 1 < p then .invalid else .ok (.random p)
      | _ => .invalid

/-- MOD_RANGE factory of registerBuiltInConditionTypes: returns the nil
marker unless exactly 3 parameters are given; then type-asserts
`values[0].(string)` and `values[1..2].(float64)` WITHOUT a comma-ok
check, so a wrong dynamic type panics; returns the nil marker when
rangeBegin > rangeEnd, and the range evaluator otherwise. -/
def modRangeFactory : List Val → FactoryResult
  | [v0, v1, v2] =>
      match v0 with
      | .str key =>
          match v1, v2 with
          | .num b, .num e =>
              if goInt b > goInt e then .invalid
              else .ok (.modRange key (goInt b) (goInt e))
          | _, _ => .goPanic
      | _ => .goPanic
  | _ => .invalid

/-- Flag of src/go/flag.go: a named value with a base (default) value. -/
structure Flag where
  Name : String
  Description : String := ""
  BaseValue : Val := .null
  deriving DecidableEq, Repr

/-- Mod of src/go/condition.go: a flag-name/value override owned by a
Variant. -/
structure Mod where
  FlagName : String
  Value : Val
  deriving DecidableEq, Repr

/-- Condition of src/go/condition.go: a type tag (Go field `Type`,
renamed since `Type` is a Lean keyword), its raw parameters and the
evaluator built at load time (`none` models a nil Go func). -/
structure Condition where
  CondType : String
  Value : Val := .null
  Values : List Val := []
  Evaluator : Option Evaluator := none
  deriving DecidableEq, Repr

/-- Condition.Evaluate of src/go/condition.go: a condition with a nil
evaluator is false; otherwise the evaluator runs on the context. -/
def Condition.Evaluate (c : Condition) (draw : ℚ) (ctx : Context) : Bool :=
  match c.Evaluator with
  | none => false
  | some e => e.run draw ctx

/-- Variant of src/go/variant.go: an id, mods, a conditional operator
and a list of conditions. -/
structure Variant where
  ID : String
  Description : String := ""
  Mods : List Mod := []
  ConditionalOperator : String := ""
  Conditions : List Condition := []
  deriving DecidableEq, Repr

/-- Variant.FlagValue of src/go/variant.go: the value of the first mod
matching the flag name, nil when the variant has no such mod. -/
def Variant.FlagValue (v : Variant) (name : String) : Val :=
  match v.Mods.find? (fun m => m.FlagName == name) with
  | some m => m.Value
  | none => Val.null

/-- Variant.Evaluate of src/go/variant.go: with exactly one condition
or operator AND, the conjunction of the conditions (vacuously true);
with operator OR, their disjunction; with any other operator, false. -/
def Variant.Evaluate (v : Variant) (draw : ℚ) (ctx : Context) : Bool :=
  if v.Conditions.length = 1 ∨ v.ConditionalOperator = "AND" then
    v.Conditions.all (fun c => c.Evaluate draw ctx)
  else if v.ConditionalOperator = "OR" then
    v.Conditions.any (fun c => c.Evaluate draw ctx)
  else
    false

/-- The zero Variant produced by a Go map read of an absent variant id. -/
def zeroVariant : Variant :=
  { ID := "", Description := "", Mods := [], ConditionalOperator := "", Conditions := [] }

/-- Registry of src/go/variants/registry.go: variants by id, condition
factories by type, flags by name, and the flag-name to variant-id-set
index (the inner Go set is modelled by a duplicate-free list). -/
structure Registry where
  variants : List (String × Variant)
  conditionSpecs : List (String × (List Val → FactoryResult))
  flags : List (String × Flag)
  flagToVariantIDMap : List (String × List String)

/-- NewRegistry: empty maps with the built-in RANDOM and MOD_RANGE
condition types pre-registered (registerBuiltInConditionTypes). -/
def NewRegistry : Registry :=
  { variants := []
    conditionSpecs := [("RANDOM", randomFactory), ("MOD_RANGE", modRangeFactory)]
    flags := []
    flagToVariantIDMap := [] }

/-- Registry.AddFlag: error if the name is taken; otherwise store the
flag and assign a fresh empty variant-id set for its name (note the
assignment overwrites any index set already under that name). -/
def Registry.AddFlag (r : Registry) (f : Flag) : Registry × Option String :=
  if (lookupA r.flags f.Name).isSome then
    (r, some ("Variant flag with the name " ++ f.Name ++ " is already registered."))
  else
    ({ r with
        flags := setA r.flags f.Name f
        flagToVariantIDMap := setA r.flagToVariantIDMap f.Name [] }, none)

/-- Insertion of a variant id into the set `flagToVariantIDMap[flagName]`,
modelling the Go assignment `r.flagToVariantIDMap[m.FlagName][v.ID] = ...`. -/
def addIndexEntry (idx : List (String × List String)) (flagName id : String) :
    List (String × List String) :=
  let s := (lookupA idx flagName).getD []
  setA idx flagName (if s.contains id then s else s ++ [id])

/-- The mods loop of Registry.AddVariant: walk the mods in order; for a
mod whose flag is registered, immediately add the index entry; on the
first mod whose flag is unknown, stop with the error, KEEPING the index
entries already added for the preceding mods. -/
def addVariantLoop (flags : List (String × Flag)) (vID : String) :
    List Mod → List (String × List String) →
    List (String × List String) × Option String
  | [], idx => (idx, none)
  | m :: rest, idx =>
      if (lookupA flags m.FlagName).isSome then
        addVariantLoop flags vID rest (addIndexEntry idx m.FlagName vID)
      else
        (idx, some ("Flag with the name " ++ m.FlagName ++ " has not been registered."))

/-- Registry.AddVariant: error if the id is taken; otherwise run the
mods loop (which mutates the index as it goes) and store the variant
only when every mod referenced a registered flag. -/
def Registry.AddVariant (r : Registry) (v : Variant) : Registry × Option String :=
  if (lookupA r.variants v.ID).isSome then
    (r, some ("Variant already registered with the ID " ++ v.ID))
  else
    match addVariantLoop r.flags v.ID v.Mods r.flagToVariantIDMap with
    | (idx, some e) => ({ r with flagToVariantIDMap := idx }, some e)
    | (idx, none) =>
        ({ r with
            flagToVariantIDMap := idx
            variants := setA r.variants v.ID v }, none)

/-- One iteration of the variant loop in Registry.FlagValueWithContext:
look the id up in the variants map (zero Variant when absent) and
overwrite the running value with the variant mod value when the variant
evaluates to true. -/
def flagStep (r : Registry) (draw : ℚ) (ctx : Context) (name : String)
    (val : Val) (variantID : String) : Val :=
  let variant := (lookupA r.variants variantID).getD zeroVariant
  if variant.Evaluate draw ctx then variant.FlagValue name else val

/-- Registry.FlagValueWithContext: start from the flag base value (the
zero Flag, hence nil, when the name is unregistered), then fold the
variant ids indexed under the name through `flagStep`. -/
def Registry.FlagValueWithContext (r : Registry) (draw : ℚ) (name : String)
    (ctx : Context) : Val :=
  let base : Val :=
    match lookupA r.flags name with
    | some f => f.BaseValue
    | none => Val.null
  ((lookupA r.flagToVariantIDMap name).getD []).foldl (flagStep r draw ctx name) base

/-- Registry.FlagValue: FlagValueWithContext with a nil context. -/
def Registry.FlagValue (r : Registry) (draw : ℚ) (name : String) : Val :=
  r.FlagValueWithContext draw name .null

/-- Registry.Flags: the registered flag values (in map order, modelled
by the association-list order). -/
def Registry.Flags (r : Registry) : List Flag :=
  r.flags.map Prod.snd

/-- Registry.Variants: the registered variant values. -/
def Registry.Variants (r : Registry) : List Variant :=
  r.variants.map Prod.snd

/-- The configFile document of registry.go: flag definitions and
variants, already unmarshalled (conditions carry no evaluator yet). -/
structure ConfigFile where
  Flags : List Flag := []
  Variants : List Variant := []
  deriving DecidableEq, Repr

/-- Outcome of a load call: success, a returned Go error, or a Go
runtime panic raised by a condition factory. -/
inductive LoadOutcome
  | ok
  | error (msg : String)
  | goPanic
  deriving DecidableEq, Repr

/-- The condition loop of Registry.LoadJSON: for each condition, take
`Values` (or `[Value]` when `Values` is empty) as the parameters; when
a factory is registered for the type, call it and store its result as
the evaluator (the nil marker leaves a nil evaluator); an unregistered
type leaves the condition untouched; a panicking factory aborts.  The
Bool result records whether a factory panicked. -/
def buildConditions (specs : List (String × (List Val → FactoryResult))) :
    List Condition → List Condition × Bool
  | [] => ([], false)
  | c :: rest =>
      let vals := if c.Values.isEmpty then [c.Value] else c.Values
      match lookupA specs c.CondType with
      | some fn =>
          match fn vals with
          | .ok e =>
              let (cs, p) := buildConditions specs rest
              ({ c with Evaluator := some e } :: cs, p)
          | .invalid =>
              let (cs, p) := buildConditions specs rest
              ({ c with Evaluator := none } :: cs, p)
          | .goPanic => (c :: rest, true)
      | none =>
          let (cs, p) := buildConditions specs rest
          (c :: cs, p)

/-- The flag loop of Registry.LoadJSON: AddFlag each definition in
order, stopping at the first error (flags added so far remain). -/
def loadFlags (r : Registry) : List Flag → Registry × Option String
  | [] => (r, none)
  | f :: rest =>
      match r.AddFlag f with
      | (r1, none) => loadFlags r1 rest
      | (r1, some e) => (r1, some e)

/-- The variant loop of Registry.LoadJSON: each variant must have at
least one mod, and a conditional operator when it has more than one
condition; its conditions then get their evaluators built, and the
variant is added with AddVariant.  Any failure stops the loop with the
registry as mutated so far; a factory panic aborts the whole call. -/
def loadVariants (r : Registry) : List Variant → Registry × LoadOutcome
  | [] => (r, .ok)
  | v :: rest =>
      if v.Mods.isEmpty then
        (r, .error ("Variant with ID " ++ v.ID ++ " must have at least one mod."))
      else if 1 < v.Conditions.length ∧ v.ConditionalOperator.isEmpty then
        (r, .error ("Variant with ID " ++ v.ID ++ " has conditions but no conditional operator specified."))
      else
        match buildConditions r.conditionSpecs v.Conditions with
        | (_, true) => (r, .goPanic)
        | (conds, false) =>
            match r.AddVariant { v with Conditions := conds } with
            | (r1, none) => loadVariants r1 rest
            | (r1, some e) => (r1, .error e)

/-- Registry.LoadJSON on an already-unmarshalled document: register the
flag definitions first, then the variants.  The receiver is mutated
in place as the loops progress. -/
def Registry.LoadJSON (r : Registry) (config : ConfigFile) : Registry × LoadOutcome :=
  match loadFlags r config.Flags with
  | (r1, some e) => (r1, .error e)
  | (r1, none) => loadVariants r1 config.Variants

/-- One flag step of Registry.mergeRegistry: delete any flag with the
same name from the receiver, then AddFlag the new one (which also
resets the variant-id index set stored under that name). -/
def mergeFlagStep (acc : Registry) (f : Flag) : Registry :=
  ({ acc with flags := delA acc.flags f.Name }.AddFlag f).1

/-- One variant step of Registry.mergeRegistry: delete any variant with
the same id from the receiver, then AddVariant the new one (the error
return is discarded, as in the source). -/
def mergeVariantStep (acc : Registry) (v : Variant) : Registry :=
  ({ acc with variants := delA acc.variants v.ID }.AddVariant v).1

/-- Registry.mergeRegistry: re-add every flag of the other registry,
then every variant, leaving all other entries of the receiver alone. -/
def Registry.mergeRegistry (r : Registry) (other : Registry) : Registry :=
  (other.Variants).foldl mergeVariantStep ((other.Flags).foldl mergeFlagStep r)

/-- Registry.ReloadJSON: load the document into a fresh registry; on
any failure return it with the receiver untouched, otherwise merge the
fresh registry into the receiver. -/
def Registry.ReloadJSON (r : Registry) (config : ConfigFile) : Registry × LoadOutcome :=
  match NewRegistry.LoadJSON config with
  | (loaded, .ok) => (r.mergeRegistry loaded, .ok)
  | (_, out) => (r, out)

/-- Fixture: a registry holding one flag f with base value true and one
variant v targeting f whose conditional operator is empty (so v never
evaluates to true). -/
def rC1 : Registry :=
  (((NewRegistry.AddFlag { Name := "f", BaseValue := .bool true }).1).AddVariant
      { ID := "v", Mods := [⟨"f", Val.bool false⟩] }).1

/-- Fixture: a registry with only the flag a registered. -/
def regC2 : Registry :=
  (NewRegistry.AddFlag { Name := "a", BaseValue := .null }).1

/-- Fixture: a variant whose first mod targets the registered flag a and
whose second mod targets the unregistered flag b. -/
def varC2 : Variant :=
  { ID := "v", Mods := [⟨"a", Val.bool true⟩, ⟨"b", Val.bool true⟩] }

/-- Fixture: a document declaring one flag and one variant with zero mods. -/
def docC3 : ConfigFile :=
  { Flags := [{ Name := "f", BaseValue := .bool false }]
    Variants := [{ ID := "v" }] }

/-- Fixture: a registry holding one unrelated flag g. -/
def rC3 : Registry :=
  (NewRegistry.AddFlag { Name := "g", BaseValue := .num 7 }).1

/-- Fixture: a registry holding flag a (base 1) and an always-active
variant v overriding a to 10. -/
def rC4 : Registry :=
  (((NewRegistry.AddFlag { Name := "a", BaseValue := .num 1 }).1).AddVariant
      { ID := "v", Mods := [⟨"a", Val.num 10⟩], ConditionalOperator := "AND" }).1

/-- Fixture: a document that only redefines the base value of flag a. -/
def docC4 : ConfigFile :=
  { Flags := [{ Name := "a", BaseValue := .num 5 }] }

/-- Fixture: rC4 with an additional unrelated flag g. -/
def rC4w : Registry :=
  (rC4.AddFlag { Name := "g", BaseValue := .str "keep" }).1

/-- Fixture: a variant with an empty conditions list and the unset
(empty) conditional operator. -/
def varC5 : Variant :=
  { ID := "v", Mods := [⟨"f", Val.bool true⟩] }

/-- Fixture: a variant with an empty conditions list and operator AND. -/
def varC5w : Variant :=
  { ID := "v", Mods := [⟨"f", Val.bool true⟩], ConditionalOperator := "AND" }

/-- Fixture: a document whose variant carries a condition of the
unregistered type BOGUS. -/
def docC7 : ConfigFile :=
  { Flags := [{ Name := "f", BaseValue := .bool false }]
    Variants := [{ ID := "v", Mods := [⟨"f", Val.bool true⟩]
                   Conditions := [{ CondType := "BOGUS", Value := .num 1 }] }] }

/-- Fixture: a document whose only variant is guarded by a RANDOM
condition with probability parameter 0.0. -/
def docC8 : ConfigFile :=
  { Flags := [{ Name := "f", BaseValue := .bool false }]
    Variants := [{ ID := "v", Mods := [⟨"f", Val.bool true⟩]
                   Conditions := [{ CondType := "RANDOM", Value := .num 0 }] }] }

/-- Fixture: the registry obtained by loading docC8. -/
def rC8 : Registry :=
  (NewRegistry.LoadJSON docC8).1

/-- Fixture: a document whose variant carries a MOD_RANGE condition
whose first (key) parameter is the number 42 instead of a string. -/
def docC9 : ConfigFile :=
  { Flags := [{ Name := "f", BaseValue := .bool false }]
    Variants := [{ ID := "v", Mods := [⟨"f", Val.bool true⟩]
                   Conditions := [{ CondType := "MOD_RANGE"
                                    Values := [.num 42, .num 0, .num 9] }] }] }

/-- Assigning key k and then reading key k yields the assigned value. -/
theorem lookupA_setA_self {α : Type} (m : List (String × α)) (k : String) (v : α) :
    lookupA (setA m k v) k = some v := by
  induction m with
  | nil => simp [setA, lookupA]
  | cons p rest ih =>
      obtain ⟨k0, v0⟩ := p
      by_cases h : k0 = k
      · simp [setA, h, lookupA]
      · simp [setA, h, lookupA, ih]

/-- Assigning key k leaves reads of any other key g unchanged. -/
theorem lookupA_setA_ne {α : Type} (m : List (String × α)) (k g : String) (v : α)
    (h : k ≠ g) : lookupA (setA m k v) g = lookupA m g := by
  induction m with
  | nil => simp [setA, lookupA, h]
  | cons p rest ih =>
      obtain ⟨k0, v0⟩ := p
      by_cases h0 : k0 = k
      · subst h0; simp [setA, lookupA, h]
      · by_cases hg : k0 = g <;> simp [setA, lookupA, h0, hg, ih, Ne.symm h]

/-- Deleting key k leaves reads of any other key g unchanged. -/
theorem lookupA_delA_ne {α : Type} (m : List (String × α)) (k g : String)
    (h : k ≠ g) : lookupA (delA m k) g = lookupA m g := by
  induction m with
  | nil => simp [delA]
  | cons p rest ih =>
      obtain ⟨k0, v0⟩ := p
      by_cases h0 : k0 = k
      · subst h0; simp [delA, lookupA, h, ih]
      · by_cases hg : k0 = g <;> simp [delA, lookupA, h0, hg, ih, Ne.symm h]

/-- Every entry of an assigned map was in the original map or is the
assigned pair. -/
theorem mem_setA {α : Type} {m : List (String × α)} {k : String} {v : α}
    {p : String × α} (hp : p ∈ setA m k v) : p ∈ m ∨ p = (k, v) := by
  induction m with
  | nil => simpa [setA] using hp
  | cons q rest ih =>
      obtain ⟨k0, v0⟩ := q
      by_cases h : k0 = k
      · simp [setA, h] at hp
        rcases hp with h1 | h1
        · right; simp [h1]
        · left; simp [h1]
      · simp [setA, h] at hp
        rcases hp with h1 | h1
        · left; simp [h1]
        · rcases ih h1 with h2 | h2
          · left; simp [h2]
          · right; exact h2

/-- Folding flagStep over variant ids that all evaluate to false leaves
the running value unchanged. -/
theorem foldl_flagStep_inactive (r : Registry) (draw : ℚ) (ctx : Context)
    (name : String) (ids : List String) (val : Val)
    (h : ∀ id ∈ ids,
        ((lookupA r.variants id).getD zeroVariant).Evaluate draw ctx = false) :
    ids.foldl (flagStep r draw ctx name) val = val := by
  induction ids generalizing val with
  | nil => rfl
  | cons i rest ih =>
      have h1 := h i (by simp)
      have h2 : flagStep r draw ctx name val i = val := by
        simp [flagStep, h1]
      rw [List.foldl_cons, h2]
      exact ih val (fun id hid => h id (by simp [hid]))

/-- Claim C1: for every registry, registered flag f and context, if no
variant indexed under the flag name evaluates to true for that context
(and that draw of the random source), FlagValueWithContext returns
exactly the flag base value. -/
theorem flagValue_base_when_no_variant_active (r : Registry) (f : Flag)
    (ctx : Context) (draw : ℚ)
    (hreg : lookupA r.flags f.Name = some f)
    (hinactive : ∀ id ∈ (lookupA r.flagToVariantIDMap f.Name).getD [],
        ((lookupA r.variants id).getD zeroVariant).Evaluate draw ctx = false) :
    r.FlagValueWithContext draw f.Name ctx = f.BaseValue := by
  unfold Registry.FlagValueWithContext
  rw [hreg]
  exact foldl_flagStep_inactive r draw ctx f.Name _ _ hinactive

/-- Witness for C1 on the fixture rC1: flag f is registered with base
value true, its only indexed variant evaluates to false, and the
queried value is the base value. -/
theorem flagValue_base_when_no_variant_active_instance :
    lookupA rC1.flags "f" = some { Name := "f", BaseValue := Val.bool true } ∧
    rC1.FlagValueWithContext 0 "f" Context.null = Val.bool true :=
  ⟨by decide,
   flagValue_base_when_no_variant_active rC1
     { Name := "f", BaseValue := Val.bool true } Context.null 0
     (by decide) (by decide)⟩

/-- Claim C10: querying a flag name that was never registered (absent
from both the flags map and the flag-to-variant index) returns nil and,
the evaluation being a pure read, leaves the registry unchanged. -/
theorem flagValue_unregistered_null (r : Registry) (name : String)
    (ctx : Context) (draw : ℚ)
    (hflag : lookupA r.flags name = none)
    (hidx : lookupA r.flagToVariantIDMap name = none) :
    r.FlagValueWithContext draw name ctx = Val.null ∧
    r.FlagValue draw name = Val.null := by
  constructor
  · unfold Registry.FlagValueWithContext
    rw [hflag, hidx]
    rfl
  · unfold Registry.FlagValue Registry.FlagValueWithContext
    rw [hflag, hidx]
    rfl

/-- Witness for C10 on the empty registry and the name nope. -/
theorem flagValue_unregistered_null_instance :
    NewRegistry.FlagValueWithContext 0 "nope" Context.null = Val.null ∧
    NewRegistry.FlagValue 0 "nope" = Val.null :=
  flagValue_unregistered_null NewRegistry "nope" Context.null 0 rfl rfl

/-- Claim C5 counterexample: the variant varC5 has an empty conditions
list and the unset (empty) conditional operator, yet Evaluate returns
false, not true, on the nil context. -/
theorem evaluate_empty_conditions_unset_op_false :
    varC5.Conditions = [] ∧ varC5.ConditionalOperator = "" ∧
    varC5.Evaluate 0 Context.null = false := by
  decide

/-- Claim C5 amended: with an empty conditions list, Variant.Evaluate
returns true exactly when the conditional operator is AND (the vacuous
conjunction); with the empty/unset operator, OR, or any other operator
it returns false. -/
theorem evaluate_empty_conditions_iff_and (v : Variant) (draw : ℚ)
    (ctx : Context) (h : v.Conditions = []) :
    v.Evaluate draw ctx = decide (v.ConditionalOperator = "AND") := by
  unfold Variant.Evaluate
  rw [h]
  by_cases hA : v.ConditionalOperator = "AND"
  · simp [hA]
  · by_cases hO : v.ConditionalOperator = "OR" <;> simp [hA, hO]

/-- Witness for the amended C5 on the fixture varC5w (operator AND). -/
theorem evaluate_empty_conditions_iff_and_instance :
    varC5w.Conditions = [] ∧
    varC5w.Evaluate 0 Context.null = decide (varC5w.ConditionalOperator = "AND") :=
  ⟨rfl, evaluate_empty_conditions_iff_and varC5w 0 Context.null rfl⟩

/-- Claim C6 counterexample: the MOD_RANGE evaluator built from
parameters [user_id, 0, 9], applied to a string-to-integer context in
which the key user_id is absent, returns true (the absent key reads as
the zero value 0, and 0 lies in [0, 9]), not false. -/
theorem modRange_absent_key_true :
    modRangeFactory [Val.str "user_id", Val.num 0, Val.num 9] =
      FactoryResult.ok (Evaluator.modRange "user_id" 0 9) ∧
    Evaluator.run (Evaluator.modRange "user_id" 0 9) 0
      (Context.intMap [("other", 5)]) = true := by
  decide

/-- Claim C6 amended: for parameters [key, range_begin, range_end] with
range_begin ≤ range_end (after Go int truncation), the MOD_RANGE
factory builds an evaluator that returns false on every context that is
not a string-to-integer map, and on a string-to-integer map returns
true iff the value of the key — the zero value 0 when the key is
absent — taken modulo 100 with the Go truncated remainder lies in the
inclusive range. -/
theorem modRange_evaluator_semantics (key : String) (rb re : ℚ)
    (m : List (String × Int)) (s : List (String × String)) (draw : ℚ)
    (h : goInt rb ≤ goInt re) :
    modRangeFactory [Val.str key, Val.num rb, Val.num re] =
      FactoryResult.ok (Evaluator.modRange key (goInt rb) (goInt re)) ∧
    ((Evaluator.modRange key (goInt rb) (goInt re)).run draw (Context.intMap m)
        = true ↔
      goInt rb ≤ Int.tmod (ctxLookupInt m key) 100 ∧
        Int.tmod (ctxLookupInt m key) 100 ≤ goInt re) ∧
    (Evaluator.modRange key (goInt rb) (goInt re)).run draw (Context.strMap s)
        = false ∧
    (Evaluator.modRange key (goInt rb) (goInt re)).run draw Context.null
        = false := by
  refine ⟨?_, ?_, rfl, rfl⟩
  · show (if goInt rb > goInt re then FactoryResult.invalid
        else FactoryResult.ok (Evaluator.modRange key (goInt rb) (goInt re))) =
      FactoryResult.ok (Evaluator.modRange key (goInt rb) (goInt re))
    exact if_neg (not_lt.mpr h)
  · simp [Evaluator.run]

/-- Witness for the amended C6 at key user_id, range [0, 9] and a
context holding user_id = 250. -/
theorem modRange_evaluator_semantics_instance :
    goInt 0 ≤ goInt 9 ∧
    (modRangeFactory [Val.str "user_id", Val.num 0, Val.num 9] =
        FactoryResult.ok (Evaluator.modRange "user_id" (goInt 0) (goInt 9)) ∧
      ((Evaluator.modRange "user_id" (goInt 0) (goInt 9)).run 0
          (Context.intMap [("user_id", 250)]) = true ↔
        goInt 0 ≤ Int.tmod (ctxLookupInt [("user_id", 250)] "user_id") 100 ∧
          Int.tmod (ctxLookupInt [("user_id", 250)] "user_id") 100 ≤ goInt 9) ∧
      (Evaluator.modRange "user_id" (goInt 0) (goInt 9)).run 0
          (Context.strMap []) = false ∧
      (Evaluator.modRange "user_id" (goInt 0) (goInt 9)).run 0
          Context.null = false) :=
  ⟨by decide,
   modRange_evaluator_semantics "user_id" 0 9 [("user_id", 250)] [] 0 (by decide)⟩

/-- Claim C8 counterexample: 0 is a possible value of the uniform draw
in [0,1), and on that draw the evaluator built by the RANDOM factory
from probability 0.0 returns true (the comparison is draw ≤ p), so the
variant CAN fire. -/
theorem random_zero_fires_at_draw_zero :
    randomFactory [Val.num 0] = FactoryResult.ok (Evaluator.random 0) ∧
    (0 : ℚ) ≤ 0 ∧ (0 : ℚ) < 1 ∧
    Evaluator.run (Evaluator.random 0) 0 Context.null = true := by
  decide

/-- Claim C8 amended: for every strictly positive draw the RANDOM 0.0
evaluator returns false, and a registered flag whose only indexed
variant is guarded by a single RANDOM 0.0 condition evaluates to the
flag base value. -/
theorem random_zero_base_for_positive_draw (r : Registry)
    (fname vid : String) (f : Flag) (v : Variant) (ctx : Context) (draw : ℚ)
    (hdraw : 0 < draw)
    (hf : lookupA r.flags fname = some f)
    (hidx : lookupA r.flagToVariantIDMap fname = some [vid])
    (hv : lookupA r.variants vid = some v)
    (hcond : ∃ c, v.Conditions = [c] ∧ c.Evaluator = some (Evaluator.random 0)) :
    Evaluator.run (Evaluator.random 0) draw ctx = false ∧
    r.FlagValueWithContext draw fname ctx = f.BaseValue := by
  have hrun : Evaluator.run (Evaluator.random 0) draw ctx = false := by
    simp [Evaluator.run, not_le.mpr hdraw]
  refine ⟨hrun, ?_⟩
  obtain ⟨c, hc, hce⟩ := hcond
  have hveval : v.Evaluate draw ctx = false := by
    unfold Variant.Evaluate
    rw [hc]
    simp [Condition.Evaluate, hce, hrun]
  unfold Registry.FlagValueWithContext
  rw [hf, hidx]
  apply foldl_flagStep_inactive
  intro id hid
  simp at hid
  rw [hid, hv]
  exact hveval

/-- Witness for the amended C8 on the registry loaded from docC8 at
draw 1/2. -/
theorem random_zero_base_for_positive_draw_instance :
    (0 : ℚ) < 1/2 ∧
    (Evaluator.run (Evaluator.random 0) (1/2) Context.null = false ∧
      rC8.FlagValueWithContext (1/2) "f" Context.null = Val.bool false) :=
  ⟨one_half_pos,
   random_zero_base_for_positive_draw rC8 "f" "v"
     { Name := "f", BaseValue := Val.bool false }
     { ID := "v", Mods := [⟨"f", Val.bool true⟩]
       Conditions := [{ CondType := "RANDOM", Value := Val.num 0
                        Evaluator := some (Evaluator.random 0) }] }
     Context.null (1/2) one_half_pos (by decide) (by decide) (by decide)
     ⟨_, rfl, rfl⟩⟩

/-- Claim C9: the MOD_RANGE factory invoked with the parameter list
[42.0, 0.0, 9.0] — the key parameter not a string — panics on the
unchecked type assertion instead of returning the invalid marker, and
loading a document containing such a condition panics instead of
failing with an error. -/
theorem modRange_factory_panics_on_nonstring_key :
    modRangeFactory [Val.num 42, Val.num 0, Val.num 9] =
      FactoryResult.goPanic ∧
    (NewRegistry.LoadJSON docC9).2 = LoadOutcome.goPanic := by
  decide

/-- Claim C2 counterexample: AddVariant of varC2 on regC2 (flag a
registered, flag b not) returns an error, yet the id v has been added
to the index set of flag a — the registry is not left unchanged. -/
theorem addVariant_partial_index_mutation :
    (regC2.AddVariant varC2).2.isSome = true ∧
    lookupA regC2.flagToVariantIDMap "a" = some [] ∧
    lookupA (regC2.AddVariant varC2).1.flagToVariantIDMap "a" = some ["v"] := by
  decide

/-- The mods loop of AddVariant returns an error whenever some mod
references an unregistered flag, whatever index it is threading. -/
theorem addVariantLoop_isSome (flags : List (String × Flag)) (vID : String) :
    ∀ (mods : List Mod) (idx : List (String × List String)),
      (∃ m ∈ mods, lookupA flags m.FlagName = none) →
      (addVariantLoop flags vID mods idx).2.isSome = true := by
  intro mods
  induction mods with
  | nil => intro idx h; simp at h
  | cons m rest ih =>
      intro idx h
      unfold addVariantLoop
      cases hm : lookupA flags m.FlagName with
      | none => simp
      | some f =>
          simp [hm]
          obtain ⟨w, hw, hwn⟩ := h
          rcases List.mem_cons.mp hw with rfl | hwrest
          · rw [hm] at hwn; cases hwn
          · exact ih _ ⟨w, hwrest, hwn⟩

/-- Claim C2 amended: if some mod of v references an unregistered flag,
AddVariant returns an error and v is not stored (the variants map and
the flags map are unchanged); however the flag-to-variant index may
retain entries added for the mods preceding the invalid one. -/
theorem addVariant_unknown_flag_errors_not_stored (r : Registry) (v : Variant)
    (h : ∃ m ∈ v.Mods, lookupA r.flags m.FlagName = none) :
    (r.AddVariant v).2.isSome = true ∧
    (r.AddVariant v).1.variants = r.variants ∧
    (r.AddVariant v).1.flags = r.flags := by
  unfold Registry.AddVariant
  by_cases hdup : (lookupA r.variants v.ID).isSome
  · simp [hdup]
  · simp only [hdup, if_false, Bool.false_eq_true]
    have hloop := addVariantLoop_isSome r.flags v.ID v.Mods r.flagToVariantIDMap h
    cases hl : addVariantLoop r.flags v.ID v.Mods r.flagToVariantIDMap with
    | mk idx err =>
        rw [hl] at hloop
        cases err with
        | none => simp at hloop
        | some e => simp

/-- Witness for the amended C2 on the fixture regC2 and varC2. -/
theorem addVariant_unknown_flag_errors_not_stored_instance :
    (∃ m ∈ varC2.Mods, lookupA regC2.flags m.FlagName = none) ∧
    ((regC2.AddVariant varC2).2.isSome = true ∧
      (regC2.AddVariant varC2).1.variants = regC2.variants ∧
      (regC2.AddVariant varC2).1.flags = regC2.flags) :=
  ⟨by decide, addVariant_unknown_flag_errors_not_stored regC2 varC2 (by decide)⟩

/-- Claim C7 counterexample: loading docC7, whose variant carries a
condition of the unregistered type BOGUS, succeeds instead of failing;
the variant is stored with a nil evaluator on that condition. -/
theorem loadJSON_unknown_condition_type_ok :
    (NewRegistry.LoadJSON docC7).2 = LoadOutcome.ok ∧
    ((lookupA (NewRegistry.LoadJSON docC7).1.variants "v").getD
        zeroVariant).Conditions.map (fun c => c.Evaluator) = [none] := by
  decide

/-- Claim C7 amended: conditions whose declared type has no registered
factory are silently accepted by the condition loop of LoadJSON — no
error and no change to the conditions, so their evaluator stays nil —
and a condition with a nil evaluator returns false for every context at
evaluation time. -/
theorem unknown_condition_type_nil_evaluator_false
    (specs : List (String × (List Val → FactoryResult))) (cs : List Condition)
    (h : ∀ c ∈ cs, lookupA specs c.CondType = none) :
    buildConditions specs cs = (cs, false) ∧
    ∀ c ∈ cs, c.Evaluator = none →
      ∀ (draw : ℚ) (ctx : Context), c.Evaluate draw ctx = false := by
  constructor
  · induction cs with
    | nil => rfl
    | cons c rest ih =>
        have hc := h c (by simp)
        have hrest := ih (fun c' hc' => h c' (by simp [hc']))
        unfold buildConditions
        rw [hc, hrest]
  · intro c _ hev draw ctx
    unfold Condition.Evaluate
    rw [hev]

/-- Witness for the amended C7 on the conditions of docC7 against the
built-in condition specs. -/
theorem unknown_condition_type_nil_evaluator_false_instance :
    lookupA NewRegistry.conditionSpecs "BOGUS" = none ∧
    (buildConditions NewRegistry.conditionSpecs
        [({ CondType := "BOGUS", Value := Val.num 1 } : Condition)] =
      ([({ CondType := "BOGUS", Value := Val.num 1 } : Condition)], false) ∧
    ∀ c ∈ [({ CondType := "BOGUS", Value := Val.num 1 } : Condition)],
      c.Evaluator = none →
        ∀ (draw : ℚ) (ctx : Context), c.Evaluate draw ctx = false) :=
  ⟨rfl,
   unknown_condition_type_nil_evaluator_false NewRegistry.conditionSpecs
     [{ CondType := "BOGUS", Value := Val.num 1 }]
     (by intro c hc; rw [List.mem_singleton] at hc; subst hc; rfl)⟩

/-- Claim C3 counterexample: loading docC3 (one flag, one variant with
zero mods) into a fresh registry returns an error, yet the document
flag f is visible in the registry afterwards — LoadJSON is not atomic. -/
theorem loadJSON_partial_state_on_zero_mods :
    (NewRegistry.LoadJSON docC3).2 =
      LoadOutcome.error "Variant with ID v must have at least one mod." ∧
    lookupA (NewRegistry.LoadJSON docC3).1.flags "f" =
      some { Name := "f", BaseValue := Val.bool false } := by
  decide

/-- The variant loop of LoadJSON never reports success when some
variant of the list declares zero mods. -/
theorem loadVariants_zero_mods_not_ok (vs : List Variant) :
    ∀ (r : Registry), (∃ v ∈ vs, v.Mods = []) →
      (loadVariants r vs).2 ≠ LoadOutcome.ok := by
  induction vs with
  | nil => intro r h; simp at h
  | cons v rest ih =>
      intro r h
      unfold loadVariants
      by_cases hm : v.Mods.isEmpty
      · simp [hm]
      · have hwrest : ∃ w ∈ rest, w.Mods = [] := by
          obtain ⟨w, hw, hwm⟩ := h
          rcases List.mem_cons.mp hw with rfl | hwr
          · exact absurd (by simp [hwm]) hm
          · exact ⟨w, hwr, hwm⟩
        by_cases hop : 1 < v.Conditions.length ∧ v.ConditionalOperator.isEmpty
        · simp [hm, hop]
        · simp only [hm, hop, if_false, Bool.false_eq_true]
          cases hb : buildConditions r.conditionSpecs v.Conditions with
          | mk conds p =>
              cases p
              · show (match Registry.AddVariant r { v with Conditions := conds } with
                      | (r1, none) => loadVariants r1 rest
                      | (r1, some e) => (r1, LoadOutcome.error e)).2 ≠ LoadOutcome.ok
                cases ha : Registry.AddVariant r { v with Conditions := conds } with
                | mk r1 err =>
                    cases err with
                    | none => exact ih r1 hwrest
                    | some e => simp
              · simp

/-- Claim C3 amended: a load of a document in which some variant
declares zero mods never succeeds, but LoadJSON itself may leave the
document's earlier flags and variants visible in the receiver
(counterexample above); the per-call atomicity holds for ReloadJSON,
which leaves the receiver exactly unchanged when the document fails to
load. -/
theorem zero_mods_load_never_ok_reload_atomic (r : Registry) (doc : ConfigFile)
    (h : ∃ v ∈ doc.Variants, v.Mods = []) :
    (r.LoadJSON doc).2 ≠ LoadOutcome.ok ∧ (r.ReloadJSON doc).1 = r := by
  have hload : ∀ (r0 : Registry), (r0.LoadJSON doc).2 ≠ LoadOutcome.ok := by
    intro r0
    unfold Registry.LoadJSON
    cases hf : loadFlags r0 doc.Flags with
    | mk r1 err =>
        cases err with
        | none => exact loadVariants_zero_mods_not_ok doc.Variants r1 h
        | some e => simp
  refine ⟨hload r, ?_⟩
  unfold Registry.ReloadJSON
  cases hl : NewRegistry.LoadJSON doc with
  | mk loaded out =>
      have hout : out ≠ LoadOutcome.ok := by
        have := hload NewRegistry
        rw [hl] at this
        exact this
      cases out with
      | ok => exact absurd rfl hout
      | error msg => rfl
      | goPanic => rfl

/-- Witness for the amended C3 on the receiver rC3 and document docC3. -/
theorem zero_mods_load_never_ok_reload_atomic_instance :
    (∃ v ∈ docC3.Variants, v.Mods = []) ∧
    ((rC3.LoadJSON docC3).2 ≠ LoadOutcome.ok ∧ (rC3.ReloadJSON docC3).1 = rC3) :=
  ⟨by decide, zero_mods_load_never_ok_reload_atomic rC3 docC3 (by decide)⟩

/-- Claim C4 counterexample: rC4 holds flag a (base 1) and the
always-active variant v overriding a to 10; reloading docC4, which only
redefines the base value of a, leaves v registered but resets the index
of a, so v no longer applies and the queried value drops to the new
base 5 instead of 10. -/
theorem reload_resets_redefined_flag_index :
    rC4.FlagValueWithContext 0 "a" Context.null = Val.num 10 ∧
    (rC4.ReloadJSON docC4).2 = LoadOutcome.ok ∧
    (lookupA (rC4.ReloadJSON docC4).1.variants "v").isSome = true ∧
    (rC4.ReloadJSON docC4).1.FlagValueWithContext 0 "a" Context.null =
      Val.num 5 := by
  decide

/-- AddFlag never changes the variants map. -/
theorem AddFlag_variants (r : Registry) (f : Flag) :
    (r.AddFlag f).1.variants = r.variants := by
  unfold Registry.AddFlag
  split <;> rfl

/-- The flag loop of LoadJSON never changes the variants map. -/
theorem loadFlags_variants (fs : List Flag) :
    ∀ r : Registry, (loadFlags r fs).1.variants = r.variants := by
  induction fs with
  | nil => intro r; rfl
  | cons f rest ih =>
      intro r
      unfold loadFlags
      cases hf : r.AddFlag f with
      | mk r1 err =>
          have h1 : r1.variants = r.variants := by
            have := AddFlag_variants r f
            rw [hf] at this
            exact this
          cases err with
          | none => rw [ih r1, h1]
          | some e => exact h1

/-- Every flag value present after an AddFlag was present before or is
the added flag. -/
theorem AddFlag_flags_sub (r : Registry) (f : Flag) :
    ∀ g ∈ (r.AddFlag f).1.Flags, g ∈ r.Flags ∨ g = f := by
  intro g hg
  unfold Registry.AddFlag at hg
  by_cases hp : (lookupA r.flags f.Name).isSome
  · rw [if_pos hp] at hg
    exact Or.inl hg
  · rw [if_neg hp] at hg
    unfold Registry.Flags at hg
    rcases List.mem_map.mp hg with ⟨p, hpmem, hpsnd⟩
    rcases mem_setA hpmem with h1 | h1
    · exact Or.inl (List.mem_map.mpr ⟨p, h1, hpsnd⟩)
    · right
      rw [h1] at hpsnd
      exact hpsnd.symm

/-- Every flag value present after the flag loop of LoadJSON was
present before or comes from the loaded definitions. -/
theorem loadFlags_flags_sub (fs : List Flag) :
    ∀ r : Registry, ∀ g ∈ (loadFlags r fs).1.Flags, g ∈ r.Flags ∨ g ∈ fs := by
  induction fs with
  | nil => intro r g hg; exact Or.inl hg
  | cons f rest ih =>
      intro r g hg
      unfold loadFlags at hg
      cases hf : r.AddFlag f with
      | mk r1 err =>
          rw [hf] at hg
          have hsub : ∀ g0 ∈ r1.Flags, g0 ∈ r.Flags ∨ g0 = f := by
            intro g0 hg0
            apply AddFlag_flags_sub r f
            rw [hf]
            exact hg0
          cases err with
          | none =>
              rcases ih r1 g hg with h1 | h1
              · rcases hsub g h1 with h2 | h2
                · exact Or.inl h2
                · exact Or.inr (by simp [h2])
              · exact Or.inr (by simp [h1])
          | some e =>
              rcases hsub g hg with h2 | h2
              · exact Or.inl h2
              · exact Or.inr (by simp [h2])

/-- One flag step of mergeRegistry leaves the flag entry, the index
entry and the whole variants map of every other flag name unchanged. -/
theorem mergeFlagStep_pres (acc : Registry) (f : Flag) (g : String)
    (h : f.Name ≠ g) :
    lookupA (mergeFlagStep acc f).flags g = lookupA acc.flags g ∧
    lookupA (mergeFlagStep acc f).flagToVariantIDMap g =
      lookupA acc.flagToVariantIDMap g ∧
    (mergeFlagStep acc f).variants = acc.variants := by
  unfold mergeFlagStep Registry.AddFlag
  split
  · exact ⟨lookupA_delA_ne _ _ _ h, rfl, rfl⟩
  · exact ⟨by rw [lookupA_setA_ne _ _ _ _ h, lookupA_delA_ne _ _ _ h],
           lookupA_setA_ne _ _ _ _ h, rfl⟩

/-- Folding the flag steps of mergeRegistry over flags whose names all
differ from g preserves the observables of g. -/
theorem mergeFlags_pres (g : String) (fs : List Flag) :
    ∀ acc : Registry, (∀ f ∈ fs, f.Name ≠ g) →
      lookupA (fs.foldl mergeFlagStep acc).flags g = lookupA acc.flags g ∧
      lookupA (fs.foldl mergeFlagStep acc).flagToVariantIDMap g =
        lookupA acc.flagToVariantIDMap g ∧
      (fs.foldl mergeFlagStep acc).variants = acc.variants := by
  induction fs with
  | nil => intro acc _; exact ⟨rfl, rfl, rfl⟩
  | cons f rest ih =>
      intro acc h
      have h1 := mergeFlagStep_pres acc f g (h f (by simp))
      have h2 := ih (mergeFlagStep acc f) (fun f' hf' => h f' (by simp [hf']))
      rw [List.foldl_cons]
      exact ⟨h2.1.trans h1.1, h2.2.1.trans h1.2.1, h2.2.2.trans h1.2.2⟩

/-- FlagValueWithContext only depends on the flag entry, the index
entry and the variants map. -/
theorem flagValue_congr (r1 r2 : Registry) (g : String) (draw : ℚ)
    (ctx : Context)
    (h1 : lookupA r1.flags g = lookupA r2.flags g)
    (h2 : lookupA r1.flagToVariantIDMap g = lookupA r2.flagToVariantIDMap g)
    (h3 : r1.variants = r2.variants) :
    r1.FlagValueWithContext draw g ctx = r2.FlagValueWithContext draw g ctx := by
  unfold Registry.FlagValueWithContext
  rw [h1, h2]
  have hstep : flagStep r1 draw ctx g = flagStep r2 draw ctx g := by
    funext val id
    unfold flagStep
    rw [h3]
  rw [hstep]

/-- Claim C4 amended: ReloadJSON of a document mentioning none of the
flag name g and declaring no variants leaves the queried value of g
unchanged (for docs that fail to load the whole receiver is unchanged);
however, for a flag name the document does redefine, the merge resets
that flag's variant-id index, so pre-existing variants absent from the
document no longer apply their mods to it (counterexample above). -/
theorem reload_preserves_unrelated_flag_value (r : Registry)
    (doc : ConfigFile) (g : String) (ctx : Context) (draw : ℚ)
    (hnf : ∀ f ∈ doc.Flags, f.Name ≠ g) (hnv : doc.Variants = []) :
    (r.ReloadJSON doc).1.FlagValueWithContext draw g ctx =
      r.FlagValueWithContext draw g ctx := by
  unfold Registry.ReloadJSON
  cases hl : NewRegistry.LoadJSON doc with
  | mk loaded out =>
      cases out with
      | error msg => rfl
      | goPanic => rfl
      | ok =>
          have hLJ := hl
          unfold Registry.LoadJSON at hLJ
          cases hf : loadFlags NewRegistry doc.Flags with
          | mk r1 err =>
              rw [hf] at hLJ
              cases err with
              | some e => simp at hLJ
              | none =>
                  rw [hnv] at hLJ
                  have hr1 : r1 = loaded := by
                    have := (Prod.mk.injEq _ _ _ _).mp hLJ
                    exact this.1
                  have hLv : loaded.variants = [] := by
                    rw [← hr1]
                    have := loadFlags_variants doc.Flags NewRegistry
                    rw [hf] at this
                    exact this
                  have hLfl : ∀ fl ∈ loaded.Flags, fl.Name ≠ g := by
                    intro fl hfl
                    rw [← hr1] at hfl
                    have hmem : fl ∈ (loadFlags NewRegistry doc.Flags).1.Flags := by
                      rw [hf]
                      exact hfl
                    rcases loadFlags_flags_sub doc.Flags NewRegistry fl hmem with h1 | h1
                    · simp [NewRegistry, Registry.Flags] at h1
                    · exact hnf fl h1
                  have hLvl : loaded.Variants = [] := by
                    unfold Registry.Variants
                    rw [hLv]
                    rfl
                  have hmerge : r.mergeRegistry loaded =
                      (loaded.Flags).foldl mergeFlagStep r := by
                    unfold Registry.mergeRegistry
                    rw [hLvl]
                    rfl
                  have hpres := mergeFlags_pres g loaded.Flags r hLfl
                  show (r.mergeRegistry loaded).FlagValueWithContext draw g ctx =
                      r.FlagValueWithContext draw g ctx
                  rw [hmerge]
                  exact flagValue_congr _ _ g draw ctx hpres.1 hpres.2.1 hpres.2.2

/-- Witness for the amended C4: rC4w holds flags a and g plus a variant
on a; reloading docC4 (which only redefines a and has no variants)
leaves the queried value of g unchanged. -/
theorem reload_preserves_unrelated_flag_value_instance :
    (∀ f ∈ docC4.Flags, f.Name ≠ "g") ∧ docC4.Variants = [] ∧
    (rC4w.ReloadJSON docC4).1.FlagValueWithContext 0 "g" Context.null =
      rC4w.FlagValueWithContext 0 "g" Context.null :=
  ⟨by decide, rfl,
   reload_preserves_unrelated_flag_value rC4w docC4 "g" Context.null 0
     (by decide) rfl⟩

end Variants
